import Mathlib

/-! Verification of the OpenMP_CUDA benchmarking harness.

Shallow embedding of the Python scripts `scripts/batch_run_task1.py` and
`scripts/batch_run_task2.py` (a benchmarking harness that shells out to
numerical executables, scrapes timing metrics from text streams, aggregates
repeated runs, computes speedup/efficiency and writes CSV summaries),
together with proofs of the specification's claims about them.

Durations and other real-valued measurements are modelled as rationals
(`ℚ`); Python exceptions are modelled with `Except String`; Python strings
are modelled as lists of characters (`PyStr`), with the string operations
the scripts use (`strip`, `startswith`, `replace`, `split`) defined
explicitly; files are modelled as explicit string/state arguments.
-/

deriving instance DecidableEq for Except

namespace OpenMPCuda

/-- Python strings, modelled as character lists. -/
abbrev PyStr := List Char

/-- Model of Python's `str.strip()`: remove leading and trailing
whitespace. -/
def pyStrip (cs : PyStr) : PyStr :=
  ((cs.dropWhile Char.isWhitespace).reverse.dropWhile Char.isWhitespace).reverse

/-- Model of Python's `str.startswith(p)`. -/
def pyStartsWith (p cs : PyStr) : Bool :=
  p.isPrefixOf cs

/-- Model of Python's single-character `str.replace(a, b)` (the scripts
only ever replace the one-character string `","` by `"."`). -/
def pyReplaceChar (a b : Char) (cs : PyStr) : PyStr :=
  cs.map (fun c => if c = a then b else c)

/-- Split at the first occurrence of `sep`: `some (before, after)`, or
`none` when `sep` does not occur (model of Python's `str.split(sep, 1)`,
which returns a two-element list exactly when `sep` occurs). -/
def pySplitFirst (sep : Char) : PyStr → Option (PyStr × PyStr)
  | [] => none
  | c :: rest =>
    if c = sep then some ([], rest)
    else (pySplitFirst sep rest).map (fun p => (c :: p.1, p.2))

/-! Metric parser (batch_run_task1.py, `run_mandelbrot`, lines 40–53)

The Python code scans `proc.stderr.splitlines()` in order, strips each
line, and on the first line starting with `"TIME_SECONDS="` takes
`line.split("=", 1)[1].strip()`, replaces `","` by `"."`, and parses the
result with `float`.  If no line matches, a `ValueError` ("MetricNotFound"
in the spec's taxonomy) is raised. -/

/-- Parse a non-empty all-digit character list as a natural number
(model of the digit handling inside Python's `float`). -/
def parseNatDigits (cs : PyStr) : Option Nat :=
  if cs.isEmpty then none
  else cs.foldl
    (fun acc c => acc.bind fun n => if c.isDigit then some (n * 10 + (c.toNat - 48)) else none)
    (some 0)

/-- Parse an unsigned decimal literal such as `1.234567`, `10`, `1.` or
`.5` as a rational (model of Python's `float` on the decimal strings the
harness feeds it; exponent notation is not produced by the measured
executables and is not modelled). -/
def parseUnsigned (cs : PyStr) : Option ℚ :=
  match pySplitFirst '.' cs with
  | none => (parseNatDigits cs).map (fun n => (n : ℚ))
  | some (intP, fracP) =>
    if fracP.contains '.' then none
    else if intP.isEmpty && fracP.isEmpty then none
    else
      let ip := if intP.isEmpty then some 0 else parseNatDigits intP
      let fp := if fracP.isEmpty then some 0 else parseNatDigits fracP
      match ip, fp with
      | some i, some f => some (((i * 10 ^ fracP.length + f : ℕ) : ℚ) / ((10 : ℚ) ^ fracP.length))
      | _, _ => none

/-- Model of Python's `float(value_str)`: optional sign, decimal digits,
optional fractional part; `none` models the `ValueError` raised on a
malformed literal. -/
def parseDecimalString (cs : PyStr) : Option ℚ :=
  let t := pyStrip cs
  match t with
  | '-' :: rest => (parseUnsigned rest).map Neg.neg
  | '+' :: rest => parseUnsigned rest
  | _ => parseUnsigned t

/-- Model of Python's `line.split("=", 1)[1]`: everything after the first
`"="` (the caller guarantees a `"="` is present, since the matched line
starts with `key ++ "="`). -/
def afterFirstEq (cs : PyStr) : PyStr :=
  match pySplitFirst '=' cs with
  | some p => p.2
  | none => []

/-- Metric parser of `run_mandelbrot` (lines 40–53): scan the stderr
lines in order; the first line whose stripped form starts with
`key ++ "="` yields the value after the first `"="`, stripped, with
decimal commas normalised to points, parsed as a float.  `.error
"MetricNotFound"` models the `ValueError` raised when no line matches;
`.error "ValueError"` models a float-parse failure of the matched
value. -/
def parseTimeSeconds (key : PyStr) : List PyStr → Except String ℚ
  | [] => .error "MetricNotFound"
  | line :: rest =>
    let l := pyStrip line
    if pyStartsWith (key ++ ['=']) l then
      match parseDecimalString (pyReplaceChar ',' '.' (pyStrip (afterFirstEq l))) with
      | some v => .ok v
      | none => .error "ValueError"
    else parseTimeSeconds key rest

/-! Aggregator (batch_run_task1.py, `aggregate_by_nthreads`, lines 83–99)

The Python code builds two insertion-ordered dictionaries over one pass of
the timings — `times_by_nt` via `setdefault(nt, []).append(t)` and
`npoints_by_nt` via plain assignment (`npoints_by_nt[nt] = np`, so a later
trial with the same key overwrites an earlier one) — then emits one
`(nt, npoints, mean)` row per key in `sorted(times_by_nt.keys())` order,
where `mean` is `statistics.mean` of the group's durations.  Dictionaries
are modelled as insertion-ordered association lists. -/

/-- A raw timing row `(nthreads, npoints, run_index, time)` as collected
by `collect_timings`. -/
structure Timing where
  nt : Nat
  np : Nat
  run : Nat
  t : ℚ
deriving DecidableEq, Repr

/-- `times_by_nt.setdefault(nt, []).append(t)` on an insertion-ordered
dictionary: append `t` to the list stored at the first entry for key `k`,
or add a new `(k, [t])` entry at the end. -/
def updTimes (k : Nat) (t : ℚ) : List (Nat × List ℚ) → List (Nat × List ℚ)
  | [] => [(k, [t])]
  | (k', l) :: rest =>
    if k' = k then (k', l ++ [t]) :: rest else (k', l) :: updTimes k t rest

/-- Dictionary lookup in `times_by_nt` (default `[]`; every key the code
looks up is present). -/
def lookupTimes (k : Nat) : List (Nat × List ℚ) → List ℚ
  | [] => []
  | (k', l) :: rest => if k' = k then l else lookupTimes k rest

/-- `npoints_by_nt[nt] = np` on an insertion-ordered dictionary:
overwrite the first entry for key `k`, or add a new entry at the end. -/
def updNp (k n : Nat) : List (Nat × Nat) → List (Nat × Nat)
  | [] => [(k, n)]
  | (k', v) :: rest =>
    if k' = k then (k', n) :: rest else (k', v) :: updNp k n rest

/-- Dictionary lookup in `npoints_by_nt`. -/
def lookupNp (k : Nat) : List (Nat × Nat) → Option Nat
  | [] => none
  | (k', v) :: rest => if k' = k then some v else lookupNp k rest

/-- The `for nt, np, _, t in timings` loop of `aggregate_by_nthreads`
filling `times_by_nt`, starting from dictionary `d`. -/
def buildTimesFrom (d : List (Nat × List ℚ)) (ts : List Timing) : List (Nat × List ℚ) :=
  ts.foldl (fun d x => updTimes x.nt x.t d) d

/-- `times_by_nt` after the loop. -/
def buildTimes (ts : List Timing) : List (Nat × List ℚ) :=
  buildTimesFrom [] ts

/-- The same loop filling `npoints_by_nt`, starting from dictionary `d`. -/
def buildNpFrom (d : List (Nat × Nat)) (ts : List Timing) : List (Nat × Nat) :=
  ts.foldl (fun d x => updNp x.nt x.np d) d

/-- `npoints_by_nt` after the loop. -/
def buildNp (ts : List Timing) : List (Nat × Nat) :=
  buildNpFrom [] ts

/-- `statistics.mean` on the non-empty duration lists the aggregator
feeds it: sum divided by length.  (`statistics.mean` raises
`StatisticsError` on an empty list; the aggregator only ever applies it
to non-empty groups, so that branch is unreachable and not modelled.) -/
def listMean (l : List ℚ) : ℚ :=
  l.sum / l.length

/-- `aggregate_by_nthreads` (lines 83–99): one `(nt, npoints, mean)` row
per configuration key, in `sorted(times_by_nt.keys())` order. -/
def aggregate_by_nthreads (timings : List Timing) : List (Nat × Nat × ℚ) :=
  (List.insertionSort (· ≤ ·) ((buildTimes timings).map Prod.fst)).map
    (fun nt =>
      (nt, (lookupNp nt (buildNp timings)).getD 0,
        listMean (lookupTimes nt (buildTimes timings))))

/-- The spec's end-to-end scenario input: nthreads `[1,2,4]`, npoints
100, 2 runs per configuration, durations `[10,10]`, `[6,5]`, `[3,3]`, in
the order `collect_timings` emits them. -/
def demoTimings : List Timing :=
  [⟨1, 100, 1, 10⟩, ⟨1, 100, 2, 10⟩, ⟨2, 100, 1, 6⟩, ⟨2, 100, 2, 5⟩,
    ⟨4, 100, 1, 3⟩, ⟨4, 100, 2, 3⟩]

/-! Speedup/efficiency calculator (batch_run_task1.py, `compute_metrics`,
lines 102–129)

The Python code raises `ValueError` on empty input, scans for the first
entry with `nt == 1` to use as baseline, otherwise takes
`min(aggregated_timings, key=lambda row: row[0])` and prints an `[INFO]`
message reporting the fallback, then emits one
`(nt, np, t, speedup, efficiency)` row per entry with
`sp = t_base / t` and `ep = sp / nt`.  The printed fallback report is
modelled as the `Option Nat` component of the result (`some k` = the
report that key `k` was used as baseline); Python's `ZeroDivisionError`
on a zero denominator is modelled as an `Except.error`. -/

/-- `min(aggregated_timings, key=lambda row: row[0])` on a non-empty
list: Python's `min` keeps the earliest entry among ties, i.e. replaces
the current best only on a strictly smaller key. -/
def minByKey (a : Nat × Nat × ℚ) (rest : List (Nat × Nat × ℚ)) : Nat × Nat × ℚ :=
  rest.foldl (fun best e => if e.1 < best.1 then e else best) a

/-- Baseline selection of `compute_metrics` (lines 108–121): the first
entry with `nt == 1` if any (no fallback report), else the minimum-key
entry together with the reported fallback key.  Returns
`(base_nthreads, t_base, reported fallback key)`.  The `[]` case is
unreachable: `compute_metrics` raises on empty input before selecting. -/
def selectBase : List (Nat × Nat × ℚ) → Nat × ℚ × Option Nat
  | [] => (0, 0, none)
  | a :: rest =>
    match (a :: rest).find? (fun e => e.1 == 1) with
    | some e => (1, e.2.2, none)
    | none =>
      let b := minByKey a rest
      (b.1, b.2.2, some b.1)

/-- The `for nt, np, t in aggregated_timings` loop of `compute_metrics`
(lines 123–127): `sp = t_base / t`, `ep = sp / nt`, with Python's
`ZeroDivisionError` modelled as an error on a zero denominator. -/
def metricsLoop (tBase : ℚ) : List (Nat × Nat × ℚ) → Except String (List (Nat × Nat × ℚ × ℚ × ℚ))
  | [] => .ok []
  | (nt, np, t) :: rest =>
    if t = 0 then .error "ZeroDivisionError: float division by zero"
    else if nt = 0 then .error "ZeroDivisionError: float division by zero"
    else
      match metricsLoop tBase rest with
      | .error e => .error e
      | .ok rows => .ok ((nt, np, t, tBase / t, tBase / t / (nt : ℚ)) :: rows)

/-- `compute_metrics` (lines 102–129): `.error` models the `ValueError`
on empty input and the `ZeroDivisionError` on a zero denominator; the
`Option Nat` in the result is the printed fallback report. -/
def compute_metrics (l : List (Nat × Nat × ℚ)) :
    Except String (List (Nat × Nat × ℚ × ℚ × ℚ) × Option Nat) :=
  match l with
  | [] => .error "No aggregated timings provided"
  | a :: rest =>
    let s := selectBase (a :: rest)
    match metricsLoop s.2.1 (a :: rest) with
    | .error e => .error e
    | .ok rows => .ok (rows, s.2.2)

/-! CSV writers (batch_run_task1.py, `save_timings_csv` lines 75–80 and
`save_metrics_csv` lines 132–148)

Both writers open the destination with mode `"w"` (truncating any previous
contents), write a header row and then one row per tuple through
`csv.writer` (default `excel` dialect: comma delimiter, `"\r\n"` line
terminator, values converted with `str`), formatting every float field
with fixed 6-decimal float formatting and integer fields as plain integers.  Files are
modelled as the string contents before/after the call. -/

/-- The decimal digit character for `n % 10`. -/
def digitChar10 (n : Nat) : Char :=
  Char.ofNat (48 + n % 10)

/-- Decimal digits of a natural number (model of Python's `str(int)`),
via an explicit fuel argument (`n` itself bounds the number of digits). -/
def natReprAux : Nat → Nat → PyStr
  | 0, _ => []
  | fuel + 1, n => if n < 10 then [digitChar10 n] else natReprAux fuel (n / 10) ++ [digitChar10 (n % 10)]

/-- Model of Python's `str` on a natural number. -/
def natRepr (n : Nat) : PyStr :=
  natReprAux (n + 1) n

/-- Round-half-even of `q * scale` to an integer: the rounding Python's
fixed-point float formatting applies.  Computed on the numerator and
denominator directly (`e = ⌊q·scale⌋`, remainder compared against half
the denominator, ties to even). -/
def roundScaled (q : ℚ) (scale : Nat) : ℤ :=
  let n : ℤ := q.num * scale
  let d : ℤ := (q.den : ℤ)
  let e : ℤ := Int.fdiv n d
  let r : ℤ := n - d * e
  if 2 * r < d then e
  else if d < 2 * r then e + 1
  else if e % 2 = 0 then e else e + 1

/-- The six digits after the decimal point: the fractional part
`r < 10^6` rendered positionally, zero-padded to exactly six digits. -/
def frac6 (r : Nat) : PyStr :=
  [digitChar10 (r / 100000), digitChar10 (r / 10000), digitChar10 (r / 1000),
    digitChar10 (r / 100), digitChar10 (r / 10), digitChar10 r]

/-- Model of Python fixed 6-decimal float formatting: round-half-even at the sixth decimal,
then sign, integer part, point, and exactly six fractional digits. -/
def format6 (q : ℚ) : PyStr :=
  let n := roundScaled q 1000000
  let m := n.natAbs
  (if n < 0 then ['-'] else []) ++ natRepr (m / 1000000) ++ ['.'] ++ frac6 (m % 1000000)

/-- One `csv.writer.writerow` call in the default `excel` dialect:
comma-joined fields followed by `"\r\n"` (the file is opened with
`newline=""`, so the terminator reaches the file untranslated). -/
def csvRow (fields : List PyStr) : PyStr :=
  List.intercalate [','] fields ++ ['\r', '\n']

/-- Opening a file in mode `"w"`: the previous contents are discarded and
the new contents replace them (no append). -/
def openWrite (_old new : PyStr) : PyStr :=
  new

/-- `save_timings_csv` (lines 75–80): header plus one
`nthreads,npoints,run_index,time` row per timing, the time formatted with
fixed 6-decimal formatting.  Returns the destination file's contents after the call,
given its contents before. -/
def save_timings_csv (rows : List Timing) (old : PyStr) : PyStr :=
  openWrite old
    (csvRow ["nthreads".data, "npoints".data, "run_index".data, "time".data] ++
      (rows.map fun r => csvRow [natRepr r.nt, natRepr r.np, natRepr r.run, format6 r.t]).flatten)

/-- `save_metrics_csv` (lines 132–148): header plus one
`nthreads,npoints,mean_time,acceleration,efficiency` row per metric, the
three float fields in fixed 6-decimal formatting. -/
def save_metrics_csv (rows : List (Nat × Nat × ℚ × ℚ × ℚ)) (old : PyStr) : PyStr :=
  openWrite old
    (csvRow ["nthreads".data, "npoints".data, "mean_time".data, "acceleration".data,
        "efficiency".data] ++
      (rows.map fun r =>
        csvRow [natRepr r.1, natRepr r.2.1, format6 r.2.2.1, format6 r.2.2.2.1,
          format6 r.2.2.2.2]).flatten)

/-! Repeated-trial collector (batch_run_task1.py, `collect_timings`,
lines 58–72)

Nested loops: outer over the thread counts, inner over run indices
`1..runs_per_config`, each trial invoking the Mandelbrot executable and
parsing `TIME_SECONDS=` from its stderr.  The external process is
abstracted as a function from `(nthreads, npoints, run_index)` to its
stderr lines; a parse failure (`MetricNotFound`/`ValueError`) propagates
and aborts the whole Mandelbrot batch. -/

/-- The inner `for r in range(1, runs_per_config + 1)` loop for one
thread count: runs `1..r` in order, failure propagating. -/
def collectRuns (runner : Nat → Nat → Nat → List PyStr) (nt npoints : Nat) :
    Nat → Except String (List Timing)
  | 0 => .ok []
  | r + 1 =>
    match collectRuns runner nt npoints r with
    | .error e => .error e
    | .ok acc =>
      match parseTimeSeconds "TIME_SECONDS".data (runner nt npoints (r + 1)) with
      | .error e => .error e
      | .ok t => .ok (acc ++ [⟨nt, npoints, r + 1, t⟩])

/-- `collect_timings` (lines 58–72): all `(nthreads, run)` trials in
nested order; any parse failure aborts the batch. -/
def collect_timings (runner : Nat → Nat → Nat → List PyStr) (npoints runsPerConfig : Nat) :
    List Nat → Except String (List Timing)
  | [] => .ok []
  | nt :: rest =>
    match collectRuns runner nt npoints runsPerConfig with
    | .error e => .error e
    | .ok acc =>
      match collect_timings runner npoints runsPerConfig rest with
      | .error e => .error e
      | .ok acc' => .ok (acc ++ acc')

/-! N-body batch driver (batch_run_task2.py)

The driver reads the JSON configuration once at start (lines 90–94),
rewrites it before every batch configuration, runs the PowerShell
launcher for each target, reads the per-target metrics file, appends one
summary row per successful trial, and restores the original configuration
at the end when one existed (lines 300–302).  A failed launcher run or a
missing metrics file is logged and skipped (`continue`, lines 152–159,
257–264).

The configuration file is modelled as an `Option` JSON dictionary (parsed
contents, `none` = file absent); the external launcher and metrics file
are abstracted as a function from `(batch name, target)` to a trial
outcome.  A `KeyError`-free `metrics.get(key, "")` default combined with
`.split()[0]` on an empty string raises `IndexError` in Python; that path
is modelled as an `Except.error`, aborting the batch. -/

/-- A JSON scalar as used in `config_n_body.json`. -/
inductive JVal
  | num (q : ℚ)
  | str (s : String)
deriving DecidableEq

/-- A parsed JSON configuration object, insertion-ordered. -/
abbrev JDict := List (String × JVal)

/-- One entry of `BATCH_CONFIGS` / `BATCH_CONFIGS_OMP` (lines 16–35). -/
structure NBodyCfg where
  name : String
  tend : ℚ
  dt : ℚ
  inp : String
  threads : Option Nat
deriving DecidableEq

/-- `BATCH_CONFIGS` (lines 16–27). -/
def BATCH_CONFIGS : List NBodyCfg :=
  [⟨"N100_dt10", 10000, 10, "random_N100.txt", none⟩,
    ⟨"N100_dt5", 10000, 5, "random_N100.txt", none⟩,
    ⟨"N100_dt2", 10000, 2, "random_N100.txt", none⟩,
    ⟨"N500_dt10", 10000, 10, "random_N500.txt", none⟩,
    ⟨"N500_dt5", 10000, 5, "random_N500.txt", none⟩,
    ⟨"N500_dt2", 10000, 2, "random_N500.txt", none⟩,
    ⟨"N2000_dt10", 10000, 10, "random_N2000.txt", none⟩,
    ⟨"N2000_dt5", 10000, 5, "random_N2000.txt", none⟩]

/-- `BATCH_CONFIGS_OMP` (lines 29–35). -/
def BATCH_CONFIGS_OMP : List NBodyCfg :=
  [⟨"N2000_dt5_threads1", 10000, 5, "random_N2000.txt", some 1⟩,
    ⟨"N2000_dt5_threads2", 10000, 5, "random_N2000.txt", some 2⟩,
    ⟨"N2000_dt5_threads4", 10000, 5, "random_N2000.txt", some 4⟩,
    ⟨"N2000_dt5_threads8", 10000, 5, "random_N2000.txt", some 8⟩,
    ⟨"N2000_dt5_threads16", 10000, 5, "random_N2000.txt", some 16⟩]

/-- The `new_config` built before each run (lines 129–140, 238–249):
`tend`, `dt`, `input`, plus `n` and `seed` carried over from the original
configuration when that is present and non-empty (`if original_config:` is
a Python truthiness test, so an empty original dictionary carries
nothing). -/
def mkNewConfig (cfg : NBodyCfg) (original : Option JDict) : JDict :=
  let base : JDict :=
    [("tend", JVal.num cfg.tend), ("dt", JVal.num cfg.dt), ("input", JVal.str cfg.inp)]
  match original with
  | none => base
  | some o =>
    if o.isEmpty then base
    else
      base ++
        (["n", "seed"].filterMap fun k => (o.find? (fun p => p.1 == k)).map fun p => (k, p.2))

/-- The observable outcome of one launcher invocation for one target:
non-zero exit code, metrics file absent, or metrics file parsed into a
dictionary. -/
inductive TrialOutcome
  | runFailed (rc : Int)
  | metricsMissing
  | metricsFound (m : List (String × PyStr))

/-- `metrics.get(key, default)`. -/
def mget (m : List (String × PyStr)) (k : String) (d : PyStr) : PyStr :=
  match m.find? (fun p => p.1 == k) with
  | some p => p.2
  | none => d

/-- Python's `str.split()`: split on runs of whitespace, dropping empty
tokens. -/
def pySplitWs : PyStr → List PyStr
  | [] => []
  | c :: rest =>
    let r := pySplitWs rest
    if c.isWhitespace then r
    else
      match rest, r with
      | d :: _, tok :: r' => if d.isWhitespace then [c] :: r else (c :: tok) :: r'
      | _, _ => [c] :: r

/-- Python's `s.split()[0]`: the first whitespace-separated token, or an
`IndexError` when there is none (which happens exactly when the metrics
dictionary lacks the key, so `get` returned `""`). -/
def getFirstWord (cs : PyStr) : Except String PyStr :=
  match pySplitWs cs with
  | [] => .error "IndexError: list index out of range"
  | w :: _ => .ok w

/-- The CPU summary row (lines 161–190; the OpenMP sweep, lines 266–294,
extracts the identical fields): `IndexError` on the four `.split()[0]`
fields aborts the batch. -/
def buildRowCpu (batchName inputRel : String) (m : List (String × PyStr)) :
    Except String (List PyStr) :=
  let particles := mget m "Particles" []
  let eps := mget m "eps" []
  let tEnd := mget m "t_end" []
  let dt := mget m "dt" []
  let threads := mget m "OpenMP threads" []
  let totalSteps := mget m "Total steps" []
  match getFirstWord (mget m "Total compute time (sum of per-step)" []) with
  | .error e => .error e
  | .ok totalTime =>
    match getFirstWord (mget m "Min step time" []) with
    | .error e => .error e
    | .ok minStep =>
      match getFirstWord (mget m "Avg step time" []) with
      | .error e => .error e
      | .ok avgStep =>
        match getFirstWord (mget m "Steps per second (avg)" []) with
        | .error e => .error e
        | .ok stepsPerSec =>
          let traj := mget m "Output trajectories" []
          let inputFile := mget m "Input file" inputRel.data
          .ok [batchName.data, "cpu".data, inputFile, tEnd, dt, eps, particles, threads,
            totalSteps, totalTime, minStep, avgStep, stepsPerSec, traj]

/-- The CUDA summary row (lines 191–220). -/
def buildRowCuda (batchName inputRel : String) (m : List (String × PyStr)) :
    Except String (List PyStr) :=
  let particles := mget m "Particles" []
  let eps := mget m "eps" []
  let tEnd := mget m "t_end" []
  let dt := mget m "dt" []
  let deviceName := mget m "CUDA device" []
  let totalSteps := mget m "Total steps" []
  match getFirstWord (mget m "Total kernel time (reset+forces+step)" []) with
  | .error e => .error e
  | .ok totalMs =>
    match getFirstWord (mget m "Min step time" []) with
    | .error e => .error e
    | .ok minMs =>
      match getFirstWord (mget m "Avg step time" []) with
      | .error e => .error e
      | .ok avgMs =>
        match getFirstWord (mget m "Steps per second (avg)" []) with
        | .error e => .error e
        | .ok stepsPerSec =>
          let traj := mget m "Output trajectories" []
          let inputFile := mget m "Input file" inputRel.data
          .ok [batchName.data, "cuda".data, inputFile, tEnd, dt, eps, particles, deviceName,
            totalSteps, totalMs, minMs, avgMs, stepsPerSec, traj]

/-- Processing of one `(configuration, target)` trial (lines 143–224):
a non-zero exit code or a missing metrics file is logged and skipped
(`continue` — no summary row, the batch moves on); a parsed metrics file
yields one summary row. -/
def processTarget (cfg : NBodyCfg) (target : String) (oc : TrialOutcome) :
    Except String (List (List PyStr)) :=
  match oc with
  | .runFailed _ => .ok []
  | .metricsMissing => .ok []
  | .metricsFound m =>
    match (if target = "cpu" then buildRowCpu cfg.name cfg.inp m
      else buildRowCuda cfg.name cfg.inp m) with
    | .error e => .error e
    | .ok row => .ok [row]

/-- The main `for cfg in BATCH_CONFIGS` loop (lines 118–224): rewrite the
configuration file, then run the `cpu` and `cuda` targets.  Returns the
configuration file contents after the loop and the summary rows written. -/
def loopConfigs (orig : Option JDict) (f : String → String → TrialOutcome) :
    List NBodyCfg → Option JDict → Except String (Option JDict × List (List PyStr))
  | [], file => .ok (file, [])
  | cfg :: rest, _ =>
    let file := some (mkNewConfig cfg orig)
    match processTarget cfg "cpu" (f cfg.name "cpu") with
    | .error e => .error e
    | .ok rowsCpu =>
      match processTarget cfg "cuda" (f cfg.name "cuda") with
      | .error e => .error e
      | .ok rowsCuda =>
        match loopConfigs orig f rest file with
        | .error e => .error e
        | .ok (file', rows') => .ok (file', rowsCpu ++ rowsCuda ++ rows')

/-- The `for cfg in BATCH_CONFIGS_OMP` loop (lines 226–298): rewrite the
configuration file, then run the `cpu` target with `OMP_NUM_THREADS`
set (the environment override does not touch the configuration file). -/
def loopOmpConfigs (orig : Option JDict) (f : String → String → TrialOutcome) :
    List NBodyCfg → Option JDict → Except String (Option JDict × List (List PyStr))
  | [], file => .ok (file, [])
  | cfg :: rest, _ =>
    let file := some (mkNewConfig cfg orig)
    match processTarget cfg "cpu" (f cfg.name "cpu") with
    | .error e => .error e
    | .ok rows =>
      match loopOmpConfigs orig f rest file with
      | .error e => .error e
      | .ok (file', rows') => .ok (file', rows ++ rows')

/-- The result of a completed N-body batch: process exit code, final
configuration file contents, and the summary rows written (in order). -/
structure BatchResult where
  exitCode : Int
  configFile : Option JDict
  rows : List (List PyStr)
deriving DecidableEq

/-- `main` of batch_run_task2.py (lines 81–306): missing launcher script
aborts with exit code 1 before touching anything; otherwise the original
configuration is read once (line 92), both batch loops run, and the
original configuration is written back at the end whenever it existed
(lines 300–302).  An unhandled `IndexError` from row construction is an
`Except.error` (the script would die with a traceback). -/
def task2_main (scriptExists : Bool) (orig : Option JDict)
    (f : String → String → TrialOutcome) : Except String BatchResult :=
  if !scriptExists then .ok ⟨1, orig, []⟩
  else
    match loopConfigs orig f BATCH_CONFIGS orig with
    | .error e => .error e
    | .ok (file1, rows1) =>
      match loopOmpConfigs orig f BATCH_CONFIGS_OMP file1 with
      | .error e => .error e
      | .ok (file2, rows2) =>
        let finalFile := match orig with
          | some o => some o
          | none => file2
        .ok ⟨0, finalFile, rows1 ++ rows2⟩

/-- The spec's end-to-end input, permuted, for the permutation-invariance
witness. -/
def demoShuffle : List Timing :=
  [⟨4, 100, 2, 3⟩, ⟨2, 100, 2, 5⟩, ⟨1, 100, 2, 10⟩, ⟨4, 100, 1, 3⟩,
    ⟨2, 100, 1, 6⟩, ⟨1, 100, 1, 10⟩]

/-- Input violating the one-size-per-key invariant: same key 1, two
different `npoints` values (100 then 200). -/
def overwriteDemo : List Timing :=
  [⟨1, 100, 1, 10⟩, ⟨1, 200, 2, 20⟩]

/-- The spec's baseline-fallback scenario: aggregates for keys 2, 4, 8
only. -/
def fallbackDemo : List (Nat × Nat × ℚ) := [(2, 100, 8), (4, 100, 4), (8, 100, 2)]

/-- Split a string at every occurrence of `sep` (used to inspect the
fields of a produced CSV line). -/
def pySplitAll (sep : Char) : PyStr → List PyStr
  | [] => [[]]
  | c :: rest =>
    match pySplitAll sep rest with
    | [] => [[c]]
    | h :: t => if c = sep then [] :: h :: t else (c :: h) :: t

/-- Whether a rendered field is in fixed 6-decimal-place form: a decimal
point with exactly six characters after it. -/
def hasSixDecimals (f : PyStr) : Bool :=
  match pySplitFirst '.' f with
  | some p => p.2.length == 6 && !(p.2.contains '.')
  | none => false

/-- One data row of the timings CSV as the spec describes it: the three
integer fields as plain integers, the duration in fixed 6-decimal form,
comma-separated, with one trailing `"\r\n"`. -/
def specTimingsRow (r : Timing) : PyStr :=
  natRepr r.nt ++ [','] ++ natRepr r.np ++ [','] ++ natRepr r.run ++ [','] ++
    format6 r.t ++ ['\r', '\n']

/-- Spec-side rendering of the whole timings CSV: header row then one
data row per timing, in order. -/
def specTimingsText (rows : List Timing) : PyStr :=
  "nthreads,npoints,run_index,time".data ++ ['\r', '\n'] ++
    (rows.map specTimingsRow).flatten

/-- One data row of the metrics CSV as the spec describes it. -/
def specMetricsRow (r : Nat × Nat × ℚ × ℚ × ℚ) : PyStr :=
  natRepr r.1 ++ [','] ++ natRepr r.2.1 ++ [','] ++ format6 r.2.2.1 ++ [','] ++
    format6 r.2.2.2.1 ++ [','] ++ format6 r.2.2.2.2 ++ ['\r', '\n']

/-- Spec-side rendering of the whole metrics CSV. -/
def specMetricsText (rows : List (Nat × Nat × ℚ × ℚ × ℚ)) : PyStr :=
  "nthreads,npoints,mean_time,acceleration,efficiency".data ++ ['\r', '\n'] ++
    (rows.map specMetricsRow).flatten

/-- A concrete original configuration for the restore witness. -/
def demoOrig : JDict := [("tend", JVal.num 1)]

/-! Dictionary lemmas for the aggregator -/

theorem lookupTimes_updTimes (k k' : Nat) (t : ℚ) (d : List (Nat × List ℚ)) :
    lookupTimes k (updTimes k' t d) = lookupTimes k d ++ (if k' = k then [t] else []) := by
  induction d with
  | nil =>
    by_cases h : k' = k <;> simp [updTimes, lookupTimes, h]
  | cons a rest ih =>
    obtain ⟨ka, la⟩ := a
    by_cases ha : ka = k'
    · subst ha
      by_cases hk : ka = k
      · subst hk; simp [updTimes, lookupTimes]
      · simp [updTimes, lookupTimes, hk]
    · by_cases hk : ka = k
      · subst hk
        have hkk : ¬ k' = ka := fun h => ha h.symm
        simp [updTimes, lookupTimes, ha, hkk]
      · simp [updTimes, lookupTimes, ha, hk, ih]

theorem lookupTimes_buildTimesFrom (k : Nat) (ts : List Timing) :
    ∀ d, lookupTimes k (buildTimesFrom d ts)
      = lookupTimes k d ++ (ts.filter (fun x => x.nt == k)).map Timing.t := by
  induction ts with
  | nil => intro d; simp [buildTimesFrom]
  | cons x rest ih =>
    intro d
    have hx : buildTimesFrom d (x :: rest) = buildTimesFrom (updTimes x.nt x.t d) rest := rfl
    rw [hx, ih, lookupTimes_updTimes]
    by_cases h : x.nt = k
    · simp [h, List.filter_cons]
    · simp [h, List.filter_cons, Nat.beq_eq_true_eq]

theorem lookupTimes_buildTimes (k : Nat) (ts : List Timing) :
    lookupTimes k (buildTimes ts) = (ts.filter (fun x => x.nt == k)).map Timing.t := by
  simpa [buildTimes, lookupTimes] using lookupTimes_buildTimesFrom k ts []

theorem keys_updTimes (k' : Nat) (t : ℚ) (d : List (Nat × List ℚ)) :
    (updTimes k' t d).map Prod.fst
      = if k' ∈ d.map Prod.fst then d.map Prod.fst else d.map Prod.fst ++ [k'] := by
  induction d with
  | nil => simp [updTimes]
  | cons a rest ih =>
    obtain ⟨ka, la⟩ := a
    by_cases ha : ka = k'
    · subst ha; simp [updTimes]
    · have hne : ¬ k' = ka := fun h => ha h.symm
      by_cases hmem : k' ∈ rest.map Prod.fst <;>
        simp [updTimes, ha, hne, hmem, ih]

theorem mem_keys_updTimes (k k' : Nat) (t : ℚ) (d : List (Nat × List ℚ)) :
    k ∈ (updTimes k' t d).map Prod.fst ↔ k = k' ∨ k ∈ d.map Prod.fst := by
  rw [keys_updTimes]
  by_cases hmem : k' ∈ d.map Prod.fst
  · simp only [hmem, if_true]
    constructor
    · exact fun h => Or.inr h
    · rintro (rfl | h) <;> [exact hmem; exact h]
  · simp [hmem, or_comm]

theorem nodup_keys_updTimes (k' : Nat) (t : ℚ) (d : List (Nat × List ℚ))
    (h : (d.map Prod.fst).Nodup) : ((updTimes k' t d).map Prod.fst).Nodup := by
  rw [keys_updTimes]
  by_cases hmem : k' ∈ d.map Prod.fst
  · simpa [hmem] using h
  · rw [if_neg hmem]
    exact ((List.perm_append_singleton k' _).nodup_iff).mpr (by simp [List.nodup_cons, hmem, h])

theorem mem_keys_buildTimesFrom (k : Nat) (ts : List Timing) :
    ∀ d, k ∈ (buildTimesFrom d ts).map Prod.fst
      ↔ k ∈ d.map Prod.fst ∨ k ∈ ts.map Timing.nt := by
  induction ts with
  | nil => intro d; simp [buildTimesFrom]
  | cons x rest ih =>
    intro d
    have hx : buildTimesFrom d (x :: rest) = buildTimesFrom (updTimes x.nt x.t d) rest := rfl
    rw [hx, ih, mem_keys_updTimes]
    simp [or_comm, or_assoc, or_left_comm, eq_comm]

theorem mem_keys_buildTimes (k : Nat) (ts : List Timing) :
    k ∈ (buildTimes ts).map Prod.fst ↔ k ∈ ts.map Timing.nt := by
  simpa [buildTimes] using mem_keys_buildTimesFrom k ts []

theorem nodup_keys_buildTimesFrom (ts : List Timing) :
    ∀ d, (d.map Prod.fst).Nodup → ((buildTimesFrom d ts).map Prod.fst).Nodup := by
  induction ts with
  | nil => intro d h; simpa [buildTimesFrom] using h
  | cons x rest ih =>
    intro d h
    exact ih (updTimes x.nt x.t d) (nodup_keys_updTimes x.nt x.t d h)

theorem nodup_keys_buildTimes (ts : List Timing) : ((buildTimes ts).map Prod.fst).Nodup :=
  nodup_keys_buildTimesFrom ts [] (by simp)

theorem lookupNp_updNp (k k' n : Nat) (d : List (Nat × Nat)) :
    lookupNp k (updNp k' n d) = if k' = k then some n else lookupNp k d := by
  induction d with
  | nil =>
    by_cases h : k' = k <;> simp [updNp, lookupNp, h]
  | cons a rest ih =>
    obtain ⟨ka, va⟩ := a
    by_cases ha : ka = k'
    · subst ha
      by_cases hk : ka = k
      · subst hk; simp [updNp, lookupNp]
      · simp [updNp, lookupNp, hk]
    · by_cases hk : ka = k
      · subst hk
        have hkk : ¬ k' = ka := fun h => ha h.symm
        simp [updNp, lookupNp, ha, hkk]
      · simp [updNp, lookupNp, ha, hk, ih]

theorem lookupNp_buildNpFrom (k : Nat) (ts : List Timing) :
    ∀ d, lookupNp k (buildNpFrom d ts)
      = match (ts.filter (fun x => x.nt == k)).getLast? with
        | some x => some x.np
        | none => lookupNp k d := by
  induction ts with
  | nil => intro d; simp [buildNpFrom]
  | cons x rest ih =>
    intro d
    have hx : buildNpFrom d (x :: rest) = buildNpFrom (updNp x.nt x.np d) rest := rfl
    rw [hx, ih, lookupNp_updNp]
    by_cases h : x.nt = k
    · rcases hrest : rest.filter (fun y => y.nt == k) with _ | ⟨y, ys⟩
      · simp [List.filter_cons, h, hrest]
      · obtain ⟨z, hz⟩ := Option.isSome_iff_exists.mp
          (List.getLast?_isSome.mpr (List.cons_ne_nil y ys))
        simp [List.filter_cons, h, hrest, hz]
    · simp [List.filter_cons, h, Nat.beq_eq_true_eq]

theorem lookupNp_buildNp (k : Nat) (ts : List Timing) :
    lookupNp k (buildNp ts)
      = match (ts.filter (fun x => x.nt == k)).getLast? with
        | some x => some x.np
        | none => none := by
  simpa [buildNp, lookupNp] using lookupNp_buildNpFrom k ts []

/-! Theorems -/

/-- C3: for every line sequence and target key, the metric parser scans
lines in order and returns the numeric value following the first line
whose trimmed form starts with `<KEY>=`, with decimal commas replaced by
decimal points before parsing. -/
theorem parseTimeSeconds_first_match (key : PyStr) (pre post : List PyStr) (line : PyStr)
    (v : ℚ)
    (hpre : ∀ s ∈ pre, pyStartsWith (key ++ ['=']) (pyStrip s) = false)
    (hline : pyStartsWith (key ++ ['=']) (pyStrip line) = true)
    (hval : parseDecimalString (pyReplaceChar ',' '.' (pyStrip (afterFirstEq (pyStrip line))))
      = some v) :
    parseTimeSeconds key (pre ++ line :: post) = .ok v := by
  induction pre with
  | nil =>
    simp only [List.nil_append, parseTimeSeconds, hline, if_true, hval]
  | cons s rest ih =>
    have hs : pyStartsWith (key ++ ['=']) (pyStrip s) = false := hpre s (by simp)
    have hrest : ∀ x ∈ rest, pyStartsWith (key ++ ['=']) (pyStrip x) = false :=
      fun x hx => hpre x (by simp [hx])
    simpa [parseTimeSeconds, hs] using ih hrest

/-- Witness for C3: the spec's concrete example, lines
`["junk", "TIME_SECONDS=1,234567", "more junk"]` with key `TIME_SECONDS`
yield `1.234567` (comma normalised to point). -/
theorem parseTimeSeconds_first_match_witness :
    parseTimeSeconds "TIME_SECONDS".data
      ["junk".data, "TIME_SECONDS=1,234567".data, "more junk".data]
      = .ok (1234567 / 1000000 : ℚ) :=
  parseTimeSeconds_first_match "TIME_SECONDS".data ["junk".data] ["more junk".data]
    "TIME_SECONDS=1,234567".data (1234567 / 1000000)
    (by decide) (by decide)
    (by
      simp +decide [parseDecimalString, parseUnsigned, parseNatDigits,
        pyStrip, pyReplaceChar, pySplitFirst, afterFirstEq]
      norm_num)

/-- Helper: scanning a stream with no matching line ends in
`MetricNotFound`. -/
theorem parseTimeSeconds_eq_error_of_no_match (key : PyStr) (lines : List PyStr)
    (h : ∀ s ∈ lines, pyStartsWith (key ++ ['=']) (pyStrip s) = false) :
    parseTimeSeconds key lines = .error "MetricNotFound" := by
  induction lines with
  | nil => rfl
  | cons s rest ih =>
    have hs : pyStartsWith (key ++ ['=']) (pyStrip s) = false := h s (by simp)
    have hrest : ∀ x ∈ rest, pyStartsWith (key ++ ['=']) (pyStrip x) = false :=
      fun x hx => h x (by simp [hx])
    simpa [parseTimeSeconds, hs] using ih hrest

/-- C4: for every line sequence containing no line whose trimmed form
starts with the target key prefix, the metric parser fails with the
`MetricNotFound` hard error (a raised `ValueError` in the source) rather
than returning a sentinel or default value. -/
theorem parseTimeSeconds_no_match (key : PyStr) (lines : List PyStr)
    (h : ∀ s ∈ lines, pyStartsWith (key ++ ['=']) (pyStrip s) = false) :
    parseTimeSeconds key lines = .error "MetricNotFound" :=
  parseTimeSeconds_eq_error_of_no_match key lines h

/-- Witness for C4: a stream with no matching prefix raises
`MetricNotFound`. -/
theorem parseTimeSeconds_no_match_witness :
    parseTimeSeconds "TIME_SECONDS".data ["junk".data, "more junk".data]
      = .error "MetricNotFound" :=
  parseTimeSeconds_no_match "TIME_SECONDS".data ["junk".data, "more junk".data] (by decide)

/-- Helper: the sorted key sequence of the aggregator is invariant under
permutation of the input trials. -/
theorem sortedKeys_perm_eq {l l' : List Timing} (h : l'.Perm l) :
    List.insertionSort (· ≤ ·) ((buildTimes l').map Prod.fst)
      = List.insertionSort (· ≤ ·) ((buildTimes l).map Prod.fst) := by
  have hkeys : ((buildTimes l').map Prod.fst).Perm ((buildTimes l).map Prod.fst) :=
    (List.perm_ext_iff_of_nodup (nodup_keys_buildTimes l') (nodup_keys_buildTimes l)).mpr
      (fun k => by
        rw [mem_keys_buildTimes, mem_keys_buildTimes]
        exact (h.map Timing.nt).mem_iff)
  exact List.eq_of_perm_of_sorted
    ((List.perm_insertionSort _ _).trans (hkeys.trans (List.perm_insertionSort _ _).symm))
    (List.sorted_insertionSort _ _) (List.sorted_insertionSort _ _)

/-- Helper: per-key group means are invariant under permutation of the
input trials. -/
theorem listMean_filter_perm {l l' : List Timing} (h : l'.Perm l) (k : Nat) :
    listMean ((l'.filter (fun x => x.nt == k)).map Timing.t)
      = listMean ((l.filter (fun x => x.nt == k)).map Timing.t) := by
  have hp := (h.filter (fun x => x.nt == k)).map Timing.t
  simp [listMean, hp.sum_eq, hp.length_eq]

/-- C5: `aggregate_by_nthreads` groups trials by configuration-key
(every trial's key appears in the output); each group is non-empty and
its reported mean equals the sum of the group's durations divided by
their count; the output is ascending in the configuration-key; and the
keys, means and their order are the same for every permutation of the
input trial list. -/
theorem aggregate_by_nthreads_grouping (l : List Timing) :
    (∀ x ∈ l, ∃ e ∈ aggregate_by_nthreads l, e.1 = x.nt) ∧
    (∀ e ∈ aggregate_by_nthreads l,
      l.filter (fun x => x.nt == e.1) ≠ [] ∧
      e.2.2 = ((l.filter (fun x => x.nt == e.1)).map Timing.t).sum
        / ((l.filter (fun x => x.nt == e.1)).map Timing.t).length) ∧
    ((aggregate_by_nthreads l).map Prod.fst).Sorted (· < ·) ∧
    (∀ l', l'.Perm l →
      (aggregate_by_nthreads l').map (fun e => (e.1, e.2.2))
        = (aggregate_by_nthreads l).map (fun e => (e.1, e.2.2))) := by
  have hkeysmap : (aggregate_by_nthreads l).map Prod.fst
      = List.insertionSort (· ≤ ·) ((buildTimes l).map Prod.fst) := by
    simp [aggregate_by_nthreads, List.map_map, Function.comp_def]
  refine ⟨?_, ?_, ?_, ?_⟩
  · intro x hx
    have hk : x.nt ∈ (buildTimes l).map Prod.fst :=
      (mem_keys_buildTimes x.nt l).mpr (List.mem_map_of_mem Timing.nt hx)
    exact ⟨_, List.mem_map_of_mem _ ((List.perm_insertionSort _ _).mem_iff.mpr hk), rfl⟩
  · intro e he
    obtain ⟨k, hk, rfl⟩ := List.mem_map.mp he
    have hkmem : k ∈ l.map Timing.nt :=
      (mem_keys_buildTimes k l).mp ((List.perm_insertionSort _ _).mem_iff.mp hk)
    obtain ⟨x0, hx0, hx0nt⟩ := List.mem_map.mp hkmem
    constructor
    · exact List.ne_nil_of_mem (List.mem_filter.mpr ⟨hx0, by simp [hx0nt]⟩)
    · show listMean (lookupTimes k (buildTimes l)) = _
      rw [lookupTimes_buildTimes]
      rfl
  · rw [hkeysmap]
    exact List.Sorted.lt_of_le (List.sorted_insertionSort _ _)
      ((List.perm_insertionSort _ _).nodup_iff.mpr (nodup_keys_buildTimes l))
  · intro l' hperm
    simp only [aggregate_by_nthreads, List.map_map]
    rw [sortedKeys_perm_eq hperm]
    refine List.map_congr_left (fun k hk => ?_)
    simp only [Function.comp_def]
    rw [lookupTimes_buildTimes k l', lookupTimes_buildTimes k l, listMean_filter_perm hperm k]

/-- Helper: concrete evaluation of the aggregator on the spec's
end-to-end scenario. -/
theorem agg_demo_eval : aggregate_by_nthreads demoTimings
    = [(1, 100, 10), (2, 100, 11 / 2), (4, 100, 3)] := by
  simp +decide [aggregate_by_nthreads, demoTimings, buildTimes, buildTimesFrom, buildNp,
    buildNpFrom, updTimes, updNp, lookupTimes, lookupNp, listMean, List.insertionSort,
    List.orderedInsert]
  norm_num

/-- Witness for C5: on the spec's end-to-end scenario, key 4 appears in
the output, the key-2 group is non-empty with mean 11/2, and a permuted
input yields identical keys and means. -/
theorem aggregate_by_nthreads_grouping_witness :
    (∃ e ∈ aggregate_by_nthreads demoTimings, e.1 = 4) ∧
    (demoTimings.filter (fun x => x.nt == 2) ≠ [] ∧
      ((2, 100, (11 / 2 : ℚ)) : Nat × Nat × ℚ).2.2
        = ((demoTimings.filter (fun x => x.nt == 2)).map Timing.t).sum
          / ((demoTimings.filter (fun x => x.nt == 2)).map Timing.t).length) ∧
    (aggregate_by_nthreads demoShuffle).map (fun e => (e.1, e.2.2))
      = (aggregate_by_nthreads demoTimings).map (fun e => (e.1, e.2.2)) := by
  refine ⟨(aggregate_by_nthreads_grouping demoTimings).1 ⟨4, 100, 1, 3⟩ (by decide),
    (aggregate_by_nthreads_grouping demoTimings).2.1 (2, 100, 11 / 2) ?_,
    (aggregate_by_nthreads_grouping demoTimings).2.2.2 demoShuffle (by decide)⟩
  rw [agg_demo_eval]
  simp

/-- C10: the representative `npoints` reported for each configuration-key
equals the `npoints` of the last trial with that key in input order
(later trials silently overwrite earlier ones in `npoints_by_nt`; the
aggregator is total, so no error is raised when the same key occurs with
different `npoints`). -/
theorem aggregate_np_last (l : List Timing) :
    ∀ e ∈ aggregate_by_nthreads l,
      ∃ x, (l.filter (fun y => y.nt == e.1)).getLast? = some x ∧ e.2.1 = x.np := by
  intro e he
  obtain ⟨k, hk, rfl⟩ := List.mem_map.mp he
  have hkmem : k ∈ l.map Timing.nt :=
    (mem_keys_buildTimes k l).mp ((List.perm_insertionSort _ _).mem_iff.mp hk)
  obtain ⟨x0, hx0, hx0nt⟩ := List.mem_map.mp hkmem
  have hne : l.filter (fun y => y.nt == k) ≠ [] :=
    List.ne_nil_of_mem (List.mem_filter.mpr ⟨hx0, by simp [hx0nt]⟩)
  obtain ⟨z, hz⟩ := Option.isSome_iff_exists.mp (List.getLast?_isSome.mpr hne)
  refine ⟨z, hz, ?_⟩
  show (lookupNp k (buildNp l)).getD 0 = z.np
  rw [lookupNp_buildNp, hz]
  rfl

/-- Helper: concrete evaluation of the aggregator on the
invariant-violating input: the later trial's `npoints` (200) wins and no
error is raised. -/
theorem agg_overwrite_eval : aggregate_by_nthreads overwriteDemo = [(1, 200, 15)] := by
  simp +decide [aggregate_by_nthreads, overwriteDemo, buildTimes, buildTimesFrom, buildNp,
    buildNpFrom, updTimes, updNp, lookupTimes, lookupNp, listMean, List.insertionSort,
    List.orderedInsert]
  norm_num

/-- Witness for C10: with trials `(nt=1, np=100)` then `(nt=1, np=200)`,
the aggregated entry `(1, 200, 15)` reports the later trial's
`npoints`. -/
theorem aggregate_np_last_witness :
    ∃ x, (overwriteDemo.filter (fun y => y.nt == ((1, 200, (15 : ℚ)) : Nat × Nat × ℚ).1)).getLast?
        = some x ∧ ((1, 200, (15 : ℚ)) : Nat × Nat × ℚ).2.1 = x.np :=
  aggregate_np_last overwriteDemo (1, 200, 15) (by rw [agg_overwrite_eval]; simp)

/-- Helper: Python's `min` over a non-empty list returns a member. -/
theorem minByKey_mem : ∀ (rest : List (Nat × Nat × ℚ)) (a), minByKey a rest ∈ a :: rest := by
  intro rest
  induction rest with
  | nil => intro a; simp [minByKey]
  | cons e t ih =>
    intro a
    have hstep : minByKey a (e :: t) = minByKey (if e.1 < a.1 then e else a) t := rfl
    rw [hstep]
    rcases List.mem_cons.mp (ih (if e.1 < a.1 then e else a)) with h1 | h1
    · by_cases hlt : e.1 < a.1
      · rw [h1, if_pos hlt]; simp
      · rw [h1, if_neg hlt]; simp
    · simp [h1]

/-- Helper: Python's `min` with `key=row[0]` returns an entry whose key
is minimal. -/
theorem minByKey_le : ∀ (rest : List (Nat × Nat × ℚ)) (a),
    (minByKey a rest).1 ≤ a.1 ∧ ∀ x ∈ rest, (minByKey a rest).1 ≤ x.1 := by
  intro rest
  induction rest with
  | nil => intro a; simp [minByKey]
  | cons e t ih =>
    intro a
    have hstep : minByKey a (e :: t) = minByKey (if e.1 < a.1 then e else a) t := rfl
    obtain ⟨ih1, ih2⟩ := ih (if e.1 < a.1 then e else a)
    have hle_a : (if e.1 < a.1 then e else a).1 ≤ a.1 := by
      by_cases hlt : e.1 < a.1
      · rw [if_pos hlt]; exact le_of_lt hlt
      · rw [if_neg hlt]
    have hle_e : (if e.1 < a.1 then e else a).1 ≤ e.1 := by
      by_cases hlt : e.1 < a.1
      · rw [if_pos hlt]
      · rw [if_neg hlt]; exact le_of_not_lt hlt
    refine ⟨hstep ▸ le_trans ih1 hle_a, fun x hx => ?_⟩
    rcases List.mem_cons.mp hx with rfl | hx
    · exact hstep ▸ le_trans ih1 hle_e
    · exact hstep ▸ ih2 x hx

/-- C2: for every non-empty aggregated sequence, `compute_metrics`
selects the baseline as follows: if an entry with key 1 exists, its mean
duration is the baseline and no fallback is reported; otherwise an entry
of minimal key supplies the baseline and the fallback key is reported
(the `[INFO]` print, modelled as the `Option Nat` report in the result);
`compute_metrics` returns exactly `selectBase`'s report on success. -/
theorem compute_metrics_baseline (l : List (Nat × Nat × ℚ)) (hne : l ≠ []) :
    ((∃ e ∈ l, e.1 = 1) →
      (selectBase l).2.2 = none ∧ ∃ e ∈ l, e.1 = 1 ∧ (selectBase l).2.1 = e.2.2) ∧
    ((∀ e ∈ l, e.1 ≠ 1) →
      ∃ e ∈ l, (selectBase l).1 = e.1 ∧ (selectBase l).2.1 = e.2.2 ∧
        (selectBase l).2.2 = some e.1 ∧ ∀ e' ∈ l, e.1 ≤ e'.1) ∧
    (∀ rows fb, compute_metrics l = .ok (rows, fb) → fb = (selectBase l).2.2) := by
  obtain ⟨a, rest, rfl⟩ : ∃ a rest, l = a :: rest := by
    cases l with
    | nil => exact absurd rfl hne
    | cons a rest => exact ⟨a, rest, rfl⟩
  refine ⟨?_, ?_, ?_⟩
  · intro h
    obtain ⟨e0, he0, he01⟩ := h
    have hsome : ((a :: rest).find? (fun e => e.1 == 1)).isSome :=
      List.find?_isSome.mpr ⟨e0, he0, by simp [he01]⟩
    obtain ⟨e, hfind⟩ := Option.isSome_iff_exists.mp hsome
    have he1 : e.1 = 1 := by simpa using List.find?_some hfind
    have hemem : e ∈ a :: rest := List.mem_of_find?_eq_some hfind
    exact ⟨by simp [selectBase, hfind], e, hemem, he1, by simp [selectBase, hfind]⟩
  · intro h
    have hnone : (a :: rest).find? (fun e => e.1 == 1) = none :=
      List.find?_eq_none.mpr (fun x hx => by simpa using h x hx)
    simp only [selectBase, hnone]
    obtain ⟨hle_a, hle⟩ := minByKey_le rest a
    refine ⟨minByKey a rest, minByKey_mem rest a, rfl, rfl, rfl, fun e' he' => ?_⟩
    rcases List.mem_cons.mp he' with rfl | he'
    · exact hle_a
    · exact hle e' he'
  · intro rows fb hok
    cases hml : metricsLoop (selectBase (a :: rest)).2.1 (a :: rest) with
    | error e => simp [compute_metrics, hml] at hok
    | ok rows' =>
      simp only [compute_metrics, hml] at hok
      exact (congrArg Prod.snd (Except.ok.inj hok)).symm

/-- Helper: concrete evaluation of `compute_metrics` on the fallback
scenario: key 2 is the baseline and the fallback is reported. -/
theorem metrics_fallback_eval : compute_metrics fallbackDemo
    = .ok ([(2, 100, 8, 1, 1 / 2), (4, 100, 4, 2, 1 / 2), (8, 100, 2, 4, 1 / 2)], some 2) := by
  simp +decide [compute_metrics, fallbackDemo, selectBase, minByKey, metricsLoop]
  norm_num

/-- Witness for C2: with aggregates for keys 2, 4 and 8 only, the entry with
key 2 is selected as baseline and the fallback report `some 2` is what
`compute_metrics` returns. -/
theorem compute_metrics_baseline_witness :
    (∃ e ∈ fallbackDemo, (selectBase fallbackDemo).1 = e.1 ∧
      (selectBase fallbackDemo).2.1 = e.2.2 ∧ (selectBase fallbackDemo).2.2 = some e.1 ∧
      ∀ e' ∈ fallbackDemo, e.1 ≤ e'.1) ∧
    (some 2 : Option Nat) = (selectBase fallbackDemo).2.2 :=
  ⟨(compute_metrics_baseline fallbackDemo (by decide)).2.1 (by decide),
    (compute_metrics_baseline fallbackDemo (by decide)).2.2 _ _ metrics_fallback_eval⟩

/-- Helper: the metrics loop never succeeds when some entry's mean
duration (the denominator of `sp = t_base / t`) is zero. -/
theorem metricsLoop_zero_denominator :
    ∀ (l : List (Nat × Nat × ℚ)) (tBase : ℚ), (∃ e ∈ l, e.2.2 = 0) →
      ∀ r, metricsLoop tBase l ≠ .ok r := by
  intro l
  induction l with
  | nil => intro tBase h; simp at h
  | cons hd rest ih =>
    intro tBase h r
    obtain ⟨nt, np, t⟩ := hd
    rcases h with ⟨e, he, hz⟩
    rcases List.mem_cons.mp he with rfl | he'
    · simp only at hz
      simp [metricsLoop, hz]
    · by_cases ht : t = 0
      · simp [metricsLoop, ht]
      · by_cases hnt : nt = 0
        · simp [metricsLoop, ht, hnt]
        · intro hok
          simp only [metricsLoop, if_neg ht, if_neg hnt] at hok
          cases hml : metricsLoop tBase rest with
          | error e2 => rw [hml] at hok; exact Except.noConfusion hok
          | ok rows' => exact ih tBase ⟨e, he', hz⟩ rows' hml

/-- C6: when some aggregated entry's mean duration — the denominator of
the speedup division — is zero, `compute_metrics` produces no numeric
result (the Python code raises `ZeroDivisionError`, modelled as an
`Except.error`). -/
theorem compute_metrics_zero_denominator (l : List (Nat × Nat × ℚ))
    (h : ∃ e ∈ l, e.2.2 = 0) : ∀ res, compute_metrics l ≠ .ok res := by
  intro res hok
  cases l with
  | nil => simp [compute_metrics] at hok
  | cons a rest =>
    cases hml : metricsLoop (selectBase (a :: rest)).2.1 (a :: rest) with
    | error e => simp [compute_metrics, hml] at hok
    | ok rows' =>
      exact metricsLoop_zero_denominator (a :: rest) (selectBase (a :: rest)).2.1 h rows' hml

/-- Witness for C6: an aggregated sequence with a zero mean duration for
key 2 yields no successful metrics result. -/
theorem compute_metrics_zero_denominator_witness :
    (compute_metrics [(1, 100, 10), (2, 100, 0)]).isOk = false := by
  cases hc : compute_metrics [(1, 100, 10), (2, 100, 0)] with
  | error e => rfl
  | ok res =>
    exact absurd hc
      (compute_metrics_zero_denominator [(1, 100, 10), (2, 100, 0)]
        ⟨(2, 100, 0), by simp, rfl⟩ res)

/-- Helper: concrete evaluation of `compute_metrics` on the spec's
end-to-end aggregated means. -/
theorem metrics_demo_eval :
    compute_metrics [(1, 100, 10), (2, 100, 11 / 2), (4, 100, 3)]
      = .ok ([(1, 100, 10, 1, 1), (2, 100, 11 / 2, 20 / 11, 10 / 11),
          (4, 100, 3, 10 / 3, 5 / 6)], none) := by
  simp +decide [compute_metrics, selectBase, minByKey, metricsLoop]
  norm_num

/-- C1: on the spec's end-to-end scenario (nthreads `[1,2,4]`, npoints
100, 2 runs, durations `[10,10]`, `[6,5]`, `[3,3]`), the pipeline yields
aggregated means `[10, 11/2, 3]`, speedups `[1, 20/11, 10/3]` and
efficiencies `[1, 10/11, 5/6]` in ascending nthreads order, with no
fallback report; the non-trivial values round at 3 decimals to 1.818,
3.333, 0.909 and 0.833. -/
theorem pipeline_end_to_end :
    aggregate_by_nthreads demoTimings = [(1, 100, 10), (2, 100, 11 / 2), (4, 100, 3)] ∧
    compute_metrics (aggregate_by_nthreads demoTimings)
      = .ok ([(1, 100, 10, 1, 1), (2, 100, 11 / 2, 20 / 11, 10 / 11),
          (4, 100, 3, 10 / 3, 5 / 6)], none) ∧
    roundScaled ((20 : ℚ) / 11) 1000 = 1818 ∧ roundScaled ((10 : ℚ) / 3) 1000 = 3333 ∧
    roundScaled ((10 : ℚ) / 11) 1000 = 909 ∧ roundScaled ((5 : ℚ) / 6) 1000 = 833 := by
  refine ⟨agg_demo_eval, agg_demo_eval ▸ metrics_demo_eval, ?_, ?_, ?_, ?_⟩ <;>
    with_unfolding_all decide

/-- Counterexample for C7 as stated: on the single timing
`(nthreads=1, npoints=100, run=1, time=10)` the writer emits the data
line `1,100,1,10.000000`, whose integer fields (e.g. `1`) are not in
6-decimal-place form — so the writers do not format *every* numeric
field to 6 decimal places. -/
theorem save_timings_not_every_field_six_decimals :
    save_timings_csv [⟨1, 100, 1, 10⟩] []
      = ("nthreads,npoints,run_index,time".data ++ ['\r', '\n'] ++
          "1,100,1,10.000000".data ++ ['\r', '\n']) ∧
    ¬ (∀ f ∈ pySplitAll ',' "1,100,1,10.000000".data, hasSixDecimals f = true) := by
  constructor
  · with_unfolding_all decide
  · decide

/-- C7 (amended): the CSV writers serialize the ordered row sequence as
comma-separated text with a header row and one trailing newline
(`"\r\n"`) per row, overwrite the destination regardless of its previous
contents, format the real-valued fields (time, mean time, acceleration,
efficiency) to fixed 6 decimal places and the integer fields as plain
integers, and are deterministic: the output is a function of the row
sequence alone. -/
theorem csv_writers_deterministic_and_formatted (rowsT : List Timing)
    (rowsM : List (Nat × Nat × ℚ × ℚ × ℚ)) (o1 o2 : PyStr) :
    save_timings_csv rowsT o1 = save_timings_csv rowsT o2 ∧
    save_timings_csv rowsT o1 = specTimingsText rowsT ∧
    save_metrics_csv rowsM o1 = save_metrics_csv rowsM o2 ∧
    save_metrics_csv rowsM o1 = specMetricsText rowsM := by
  have hrowT : ∀ r : Timing,
      csvRow [natRepr r.nt, natRepr r.np, natRepr r.run, format6 r.t] = specTimingsRow r := by
    intro r
    simp [csvRow, specTimingsRow, List.intercalate, List.intersperse]
  have hrowM : ∀ r : Nat × Nat × ℚ × ℚ × ℚ,
      csvRow [natRepr r.1, natRepr r.2.1, format6 r.2.2.1, format6 r.2.2.2.1,
        format6 r.2.2.2.2] = specMetricsRow r := by
    intro r
    simp [csvRow, specMetricsRow, List.intercalate, List.intersperse]
  have hhT : csvRow ["nthreads".data, "npoints".data, "run_index".data, "time".data]
      = "nthreads,npoints,run_index,time".data ++ ['\r', '\n'] := by decide
  have hhM : csvRow ["nthreads".data, "npoints".data, "mean_time".data, "acceleration".data,
      "efficiency".data]
      = "nthreads,npoints,mean_time,acceleration,efficiency".data ++ ['\r', '\n'] := by decide
  refine ⟨rfl, ?_, rfl, ?_⟩
  · show csvRow _ ++ _ = _
    rw [hhT, List.map_congr_left (fun r _ => hrowT r)]
    simp [specTimingsText]
  · show csvRow _ ++ _ = _
    rw [hhM, List.map_congr_left (fun r _ => hrowM r)]
    simp [specMetricsText]

/-- C8: in the N-body batch driver, the original configuration is read
once at start and written back at the end of the batch on every completed
run — including runs in which failed trials caused early continuation to
the next configuration — so whenever the configuration file existed at
start and the batch completes, the file again holds the original
contents. -/
theorem task2_config_restored (scriptExists : Bool) (orig : Option JDict)
    (f : String → String → TrialOutcome) (c : JDict) (res : BatchResult)
    (horig : orig = some c) (hok : task2_main scriptExists orig f = .ok res) :
    res.configFile = some c := by
  subst horig
  cases scriptExists with
  | false =>
    have hdef : task2_main false (some c) f = .ok ⟨1, some c, []⟩ := rfl
    have h2 := (hdef.symm.trans hok)
    rw [← Except.ok.inj h2]
  | true =>
    cases h1 : loopConfigs (some c) f BATCH_CONFIGS (some c) with
    | error e =>
      have hdef : task2_main true (some c) f = .error e := by simp [task2_main, h1]
      rw [hdef] at hok
      exact Except.noConfusion hok
    | ok p1 =>
      obtain ⟨file1, rows1⟩ := p1
      cases h2 : loopOmpConfigs (some c) f BATCH_CONFIGS_OMP file1 with
      | error e =>
        have hdef : task2_main true (some c) f = .error e := by simp [task2_main, h1, h2]
        rw [hdef] at hok
        exact Except.noConfusion hok
      | ok p2 =>
        obtain ⟨file2, rows2⟩ := p2
        have hdef : task2_main true (some c) f = .ok ⟨0, some c, rows1 ++ rows2⟩ := by
          simp [task2_main, h1, h2]
        rw [hdef] at hok
        rw [← Except.ok.inj hok]

/-- Helper: concrete evaluation of a batch in which every launcher
invocation fails: it completes with exit code 0, no summary rows, and
the original configuration restored. -/
theorem task2_runfailed_eval :
    task2_main true (some demoOrig) (fun _ _ => .runFailed 1)
      = .ok ⟨0, some demoOrig, []⟩ := by
  with_unfolding_all decide

/-- Witness for C8: a batch whose every trial fails still ends with the
original configuration contents in the file. -/
theorem task2_config_restored_witness :
    (⟨0, some demoOrig, []⟩ : BatchResult).configFile = some demoOrig :=
  task2_config_restored true (some demoOrig) (fun _ _ => .runFailed 1) demoOrig
    ⟨0, some demoOrig, []⟩ rfl task2_runfailed_eval

/-- Helper: a successfully built CPU row starts with the batch name and
the target `cpu`. -/
theorem buildRowCpu_shape (b i : String) (m : List (String × PyStr)) (row : List PyStr)
    (h : buildRowCpu b i m = .ok row) :
    row.head? = some b.data ∧ row.get? 1 = some "cpu".data := by
  cases hw1 : getFirstWord (mget m "Total compute time (sum of per-step)" []) with
  | error e => simp [buildRowCpu, hw1] at h
  | ok w1 =>
    cases hw2 : getFirstWord (mget m "Min step time" []) with
    | error e => simp [buildRowCpu, hw1, hw2] at h
    | ok w2 =>
      cases hw3 : getFirstWord (mget m "Avg step time" []) with
      | error e => simp [buildRowCpu, hw1, hw2, hw3] at h
      | ok w3 =>
        cases hw4 : getFirstWord (mget m "Steps per second (avg)" []) with
        | error e => simp [buildRowCpu, hw1, hw2, hw3, hw4] at h
        | ok w4 =>
          simp only [buildRowCpu, hw1, hw2, hw3, hw4] at h
          rw [← Except.ok.inj h]
          exact ⟨rfl, rfl⟩

/-- Helper: a successfully built CUDA row starts with the batch name and
the target `cuda`. -/
theorem buildRowCuda_shape (b i : String) (m : List (String × PyStr)) (row : List PyStr)
    (h : buildRowCuda b i m = .ok row) :
    row.head? = some b.data ∧ row.get? 1 = some "cuda".data := by
  cases hw1 : getFirstWord (mget m "Total kernel time (reset+forces+step)" []) with
  | error e => simp [buildRowCuda, hw1] at h
  | ok w1 =>
    cases hw2 : getFirstWord (mget m "Min step time" []) with
    | error e => simp [buildRowCuda, hw1, hw2] at h
    | ok w2 =>
      cases hw3 : getFirstWord (mget m "Avg step time" []) with
      | error e => simp [buildRowCuda, hw1, hw2, hw3] at h
      | ok w3 =>
        cases hw4 : getFirstWord (mget m "Steps per second (avg)" []) with
        | error e => simp [buildRowCuda, hw1, hw2, hw3, hw4] at h
        | ok w4 =>
          simp only [buildRowCuda, hw1, hw2, hw3, hw4] at h
          rw [← Except.ok.inj h]
          exact ⟨rfl, rfl⟩

/-- Helper: every row emitted for one trial comes from a parsed metrics
file (never from a failed run or a missing metrics file), and carries the
batch name and target in its first two fields. -/
theorem processTarget_rows (cfg : NBodyCfg) (target : String) (oc : TrialOutcome)
    (rows : List (List PyStr)) (h : processTarget cfg target oc = .ok rows) :
    ∀ row ∈ rows, (∃ m, oc = .metricsFound m) ∧ row.head? = some cfg.name.data ∧
      row.get? 1 = some (if target = "cpu" then "cpu".data else "cuda".data) := by
  intro row hrow
  cases oc with
  | runFailed rc =>
    rw [← Except.ok.inj h] at hrow
    simp [processTarget] at hrow
  | metricsMissing =>
    rw [← Except.ok.inj h] at hrow
    simp [processTarget] at hrow
  | metricsFound m =>
    by_cases ht : target = "cpu"
    · cases hb : buildRowCpu cfg.name cfg.inp m with
      | error e => simp [processTarget, ht, hb] at h
      | ok row0 =>
        simp only [processTarget, ht, if_pos, hb] at h
        rw [← Except.ok.inj h] at hrow
        have : row = row0 := by simpa using hrow
        subst this
        obtain ⟨h1, h2⟩ := buildRowCpu_shape cfg.name cfg.inp m row hb
        exact ⟨⟨m, rfl⟩, h1, by simpa [ht] using h2⟩
    · cases hb : buildRowCuda cfg.name cfg.inp m with
      | error e => simp [processTarget, ht, hb] at h
      | ok row0 =>
        simp only [processTarget, ht, if_neg, if_false, hb] at h
        rw [← Except.ok.inj h] at hrow
        have : row = row0 := by simpa using hrow
        subst this
        obtain ⟨h1, h2⟩ := buildRowCuda_shape cfg.name cfg.inp m row hb
        exact ⟨⟨m, rfl⟩, h1, by simpa [ht] using h2⟩

/-- Helper: every summary row emitted by the main batch loop comes from a
configuration in the list and a target whose trial produced a parsed
metrics file, and carries that batch name and target in its first two
fields. -/
theorem loopConfigs_rows (orig : Option JDict) (f : String → String → TrialOutcome) :
    ∀ (cfgs : List NBodyCfg) (file file' : Option JDict) (rows : List (List PyStr)),
      loopConfigs orig f cfgs file = .ok (file', rows) →
      ∀ row ∈ rows, ∃ cfg ∈ cfgs, ∃ tg : String, (tg = "cpu" ∨ tg = "cuda") ∧
        (∃ m, f cfg.name tg = .metricsFound m) ∧
        row.head? = some cfg.name.data ∧ row.get? 1 = some tg.data := by
  intro cfgs
  induction cfgs with
  | nil =>
    intro file file' rows h row hrow
    simp only [loopConfigs] at h
    have h2 : ([] : List (List PyStr)) = rows := congrArg Prod.snd (Except.ok.inj h)
    rw [← h2] at hrow
    simp at hrow
  | cons cfg rest ih =>
    intro file file' rows h row hrow
    cases hcpu : processTarget cfg "cpu" (f cfg.name "cpu") with
    | error e => simp [loopConfigs, hcpu] at h
    | ok rowsCpu =>
      cases hcuda : processTarget cfg "cuda" (f cfg.name "cuda") with
      | error e => simp [loopConfigs, hcpu, hcuda] at h
      | ok rowsCuda =>
        cases hrec : loopConfigs orig f rest (some (mkNewConfig cfg orig)) with
        | error e => simp [loopConfigs, hcpu, hcuda, hrec] at h
        | ok p =>
          obtain ⟨fileR, rowsR⟩ := p
          simp only [loopConfigs, hcpu, hcuda, hrec] at h
          have hrows : rows = rowsCpu ++ rowsCuda ++ rowsR :=
            (congrArg Prod.snd (Except.ok.inj h)).symm
          rw [hrows] at hrow
          rcases List.mem_append.mp hrow with hmem | hmemR
          · rcases List.mem_append.mp hmem with hmemCpu | hmemCuda
            · obtain ⟨hm, h1, h2⟩ := processTarget_rows cfg "cpu" _ rowsCpu hcpu row hmemCpu
              exact ⟨cfg, List.mem_cons_self cfg rest, "cpu", Or.inl rfl, hm, h1,
                by simpa using h2⟩
            · obtain ⟨hm, h1, h2⟩ := processTarget_rows cfg "cuda" _ rowsCuda hcuda row hmemCuda
              exact ⟨cfg, List.mem_cons_self cfg rest, "cuda", Or.inr rfl, hm, h1,
                by simpa using h2⟩
          · obtain ⟨cfg', hcfg', tg, htg, hm, h1, h2⟩ :=
              ih (some (mkNewConfig cfg orig)) fileR rowsR hrec row hmemR
            exact ⟨cfg', List.mem_cons_of_mem cfg hcfg', tg, htg, hm, h1, h2⟩

/-- Helper: the same soundness property for the OpenMP sweep loop (its
only target is `cpu`). -/
theorem loopOmpConfigs_rows (orig : Option JDict) (f : String → String → TrialOutcome) :
    ∀ (cfgs : List NBodyCfg) (file file' : Option JDict) (rows : List (List PyStr)),
      loopOmpConfigs orig f cfgs file = .ok (file', rows) →
      ∀ row ∈ rows, ∃ cfg ∈ cfgs,
        (∃ m, f cfg.name "cpu" = .metricsFound m) ∧
        row.head? = some cfg.name.data ∧ row.get? 1 = some "cpu".data := by
  intro cfgs
  induction cfgs with
  | nil =>
    intro file file' rows h row hrow
    simp only [loopOmpConfigs] at h
    have h2 : ([] : List (List PyStr)) = rows := congrArg Prod.snd (Except.ok.inj h)
    rw [← h2] at hrow
    simp at hrow
  | cons cfg rest ih =>
    intro file file' rows h row hrow
    cases hcpu : processTarget cfg "cpu" (f cfg.name "cpu") with
    | error e => simp [loopOmpConfigs, hcpu] at h
    | ok rowsCpu =>
      cases hrec : loopOmpConfigs orig f rest (some (mkNewConfig cfg orig)) with
      | error e => simp [loopOmpConfigs, hcpu, hrec] at h
      | ok p =>
        obtain ⟨fileR, rowsR⟩ := p
        simp only [loopOmpConfigs, hcpu, hrec] at h
        have hrows : rows = rowsCpu ++ rowsR :=
          (congrArg Prod.snd (Except.ok.inj h)).symm
        rw [hrows] at hrow
        rcases List.mem_append.mp hrow with hmemCpu | hmemR
        · obtain ⟨hm, h1, h2⟩ := processTarget_rows cfg "cpu" _ rowsCpu hcpu row hmemCpu
          exact ⟨cfg, List.mem_cons_self cfg rest, hm, h1, by simpa using h2⟩
        · obtain ⟨cfg', hcfg', hm, h1, h2⟩ :=
            ih (some (mkNewConfig cfg orig)) fileR rowsR hrec row hmemR
          exact ⟨cfg', List.mem_cons_of_mem cfg hcfg', hm, h1, h2⟩

/-- Helper: when every trial's metrics file is missing, the main batch
loop still completes, emitting no rows. -/
theorem loopConfigs_all_missing (orig : Option JDict) :
    ∀ (cfgs : List NBodyCfg) (file : Option JDict), ∃ file',
      loopConfigs orig (fun _ _ => .metricsMissing) cfgs file = .ok (file', []) := by
  intro cfgs
  induction cfgs with
  | nil => intro file; exact ⟨file, rfl⟩
  | cons cfg rest ih =>
    intro file
    obtain ⟨file', hrec⟩ := ih (some (mkNewConfig cfg orig))
    exact ⟨file', by simp [loopConfigs, processTarget, hrec]⟩

/-- Helper: the same for the OpenMP sweep loop. -/
theorem loopOmpConfigs_all_missing (orig : Option JDict) :
    ∀ (cfgs : List NBodyCfg) (file : Option JDict), ∃ file',
      loopOmpConfigs orig (fun _ _ => .metricsMissing) cfgs file = .ok (file', []) := by
  intro cfgs
  induction cfgs with
  | nil => intro file; exact ⟨file, rfl⟩
  | cons cfg rest ih =>
    intro file
    obtain ⟨file', hrec⟩ := ih (some (mkNewConfig cfg orig))
    exact ⟨file', by simp [loopOmpConfigs, processTarget, hrec]⟩

/-- Helper: one unparseable trial makes the Mandelbrot inner run loop
fail. -/
theorem collectRuns_error_of_bad_trial (runner : Nat → Nat → Nat → List PyStr)
    (nt npoints : Nat) :
    ∀ (R r : Nat), 1 ≤ r → r ≤ R →
      (∀ s ∈ runner nt npoints r,
        pyStartsWith ("TIME_SECONDS".data ++ ['=']) (pyStrip s) = false) →
      ∀ acc, collectRuns runner nt npoints R ≠ .ok acc := by
  intro R
  induction R with
  | zero => intro r h1 hr; omega
  | succ R ih =>
    intro r h1 hr hbad acc hok
    cases hruns : collectRuns runner nt npoints R with
    | error e => simp [collectRuns, hruns] at hok
    | ok acc' =>
      rcases eq_or_lt_of_le hr with heq | hlt
      · subst heq
        have hparse := parseTimeSeconds_eq_error_of_no_match "TIME_SECONDS".data
          (runner nt npoints (R + 1)) hbad
        simp [collectRuns, hruns, hparse] at hok
      · exact ih r h1 (Nat.lt_succ_iff.mp hlt) hbad acc' hruns

/-- Helper: one unparseable trial makes the whole Mandelbrot collection
fail (the error propagates; no partial result is returned). -/
theorem collect_timings_error_of_bad_trial (runner : Nat → Nat → Nat → List PyStr)
    (npoints R : Nat) :
    ∀ (nts : List Nat),
      (∃ nt ∈ nts, ∃ r, 1 ≤ r ∧ r ≤ R ∧
        ∀ s ∈ runner nt npoints r,
          pyStartsWith ("TIME_SECONDS".data ++ ['=']) (pyStrip s) = false) →
      ∀ res, collect_timings runner npoints R nts ≠ .ok res := by
  intro nts
  induction nts with
  | nil => intro h; simp at h
  | cons nt rest ih =>
    intro h res hok
    obtain ⟨nt', hmem, r, h1, hr, hbad⟩ := h
    cases hruns : collectRuns runner nt npoints R with
    | error e => simp [collect_timings, hruns] at hok
    | ok acc =>
      rcases List.mem_cons.mp hmem with rfl | hmem'
      · exact collectRuns_error_of_bad_trial runner nt' npoints R r h1 hr hbad acc hruns
      · cases hrest : collect_timings runner npoints R rest with
        | error e => simp [collect_timings, hruns, hrest] at hok
        | ok acc' => exact ih ⟨nt', hmem', r, h1, hr, hbad⟩ acc' hrest

/-- C9: in the N-body batch, a missing metrics file (the batch's
`MetricNotFound` condition) after a trial is skipped: no summary row with
that trial's batch name and target is written, and the batch still
completes (exit code 0) even when every trial's metrics are missing.  In
the Mandelbrot batch the same condition is fatal: one trial whose stderr
lacks the metric makes `collect_timings` fail outright. -/
theorem nbody_missing_metrics_skipped_mandelbrot_fatal :
    (∀ (orig : Option JDict) (f : String → String → TrialOutcome) (res : BatchResult),
      task2_main true orig f = .ok res →
      ∀ b tg, f b tg = .metricsMissing →
        ¬ ∃ row ∈ res.rows, row.head? = some b.data ∧ row.get? 1 = some tg.data) ∧
    (∀ orig : Option JDict, ∃ res,
      task2_main true orig (fun _ _ => .metricsMissing) = .ok res ∧
        res.exitCode = 0 ∧ res.rows = []) ∧
    (∀ (runner : Nat → Nat → Nat → List PyStr) (npoints R : Nat) (nts : List Nat),
      (∃ nt ∈ nts, ∃ r, 1 ≤ r ∧ r ≤ R ∧
        ∀ s ∈ runner nt npoints r,
          pyStartsWith ("TIME_SECONDS".data ++ ['=']) (pyStrip s) = false) →
      ∀ res, collect_timings runner npoints R nts ≠ .ok res) := by
  refine ⟨?_, ?_, collect_timings_error_of_bad_trial⟩
  · intro orig f res hok b tg hmiss hex
    obtain ⟨row, hrow, hhead, hsnd⟩ := hex
    cases h1 : loopConfigs orig f BATCH_CONFIGS orig with
    | error e =>
      have hdef : task2_main true orig f = .error e := by simp [task2_main, h1]
      rw [hdef] at hok; exact Except.noConfusion hok
    | ok p1 =>
      obtain ⟨file1, rows1⟩ := p1
      cases h2 : loopOmpConfigs orig f BATCH_CONFIGS_OMP file1 with
      | error e =>
        have hdef : task2_main true orig f = .error e := by simp [task2_main, h1, h2]
        rw [hdef] at hok; exact Except.noConfusion hok
      | ok p2 =>
        obtain ⟨file2, rows2⟩ := p2
        have hdef : ∃ fl, task2_main true orig f = .ok ⟨0, fl, rows1 ++ rows2⟩ := by
          cases orig with
          | none => exact ⟨file2, by simp [task2_main, h1, h2]⟩
          | some o => exact ⟨some o, by simp [task2_main, h1, h2]⟩
        obtain ⟨fl, hdef⟩ := hdef
        rw [hdef] at hok
        have hres : res.rows = rows1 ++ rows2 := by
          rw [← Except.ok.inj hok]
        rw [hres] at hrow
        rcases List.mem_append.mp hrow with hmem1 | hmem2
        · obtain ⟨cfg, _, tg', _, ⟨m, hm⟩, hh, hs⟩ :=
            loopConfigs_rows orig f BATCH_CONFIGS orig file1 rows1 h1 row hmem1
          have hb : cfg.name = b := String.ext (Option.some.inj (hh ▸ hhead))
          have htg : tg' = tg := String.ext (Option.some.inj (hs ▸ hsnd))
          rw [hb, htg, hmiss] at hm
          exact TrialOutcome.noConfusion hm
        · obtain ⟨cfg, _, ⟨m, hm⟩, hh, hs⟩ :=
            loopOmpConfigs_rows orig f BATCH_CONFIGS_OMP file1 file2 rows2 h2 row hmem2
          have hb : cfg.name = b := String.ext (Option.some.inj (hh ▸ hhead))
          have htg : "cpu" = tg := String.ext (Option.some.inj (hs ▸ hsnd))
          rw [hb, htg, hmiss] at hm
          exact TrialOutcome.noConfusion hm
  · intro orig
    obtain ⟨file1, hl1⟩ := loopConfigs_all_missing orig BATCH_CONFIGS orig
    obtain ⟨file2, hl2⟩ := loopOmpConfigs_all_missing orig BATCH_CONFIGS_OMP file1
    cases orig with
    | none => exact ⟨⟨0, file2, []⟩, by simp [task2_main, hl1, hl2], rfl, rfl⟩
    | some o => exact ⟨⟨0, some o, []⟩, by simp [task2_main, hl1, hl2], rfl, rfl⟩

/-- Witness for C9: with every metrics file missing, no row for batch
`N100_dt10`, target `cpu` exists, the batch completes with exit code 0
and no rows; and a Mandelbrot batch whose only trial prints no
`TIME_SECONDS=` line fails outright. -/
theorem nbody_missing_metrics_skipped_mandelbrot_fatal_witness :
    (¬ ∃ row ∈ (⟨0, some [("tend", JVal.num 10000), ("dt", JVal.num 5),
          ("input", JVal.str "random_N2000.txt")], []⟩ : BatchResult).rows,
        row.head? = some "N100_dt10".data ∧ row.get? 1 = some "cpu".data) ∧
    (∃ res, task2_main true none (fun _ _ => .metricsMissing) = .ok res ∧
      res.exitCode = 0 ∧ res.rows = []) ∧
    (∀ res, collect_timings (fun _ _ _ => ["junk".data]) 100 1 [1] ≠ .ok res) := by
  refine ⟨?_, nbody_missing_metrics_skipped_mandelbrot_fatal.2.1 none,
    nbody_missing_metrics_skipped_mandelbrot_fatal.2.2 (fun _ _ _ => ["junk".data]) 100 1 [1]
      ⟨1, by decide, 1, by decide, by decide, by decide⟩⟩
  exact nbody_missing_metrics_skipped_mandelbrot_fatal.1 none (fun _ _ => .metricsMissing)
    ⟨0, some [("tend", JVal.num 10000), ("dt", JVal.num 5),
      ("input", JVal.str "random_N2000.txt")], []⟩
    rfl "N100_dt10" "cpu" rfl

end OpenMPCuda
